import Mathlib

/-!
Verification development for the `chatbot_genai` repository, centred on the
dialogue-state / intent-resolution core in `chat-api/chat_api.py` (the most
evolved variant, which the specification describes).

The Python core is shallowly embedded:
* messages are `String`s (lists of Unicode characters);
* the regular-expression searches of `extract_order_and_reason` are embedded
  as executable leftmost-match scans with the exact alternation order,
  greediness and word-boundary behaviour of Python `re`;
* the database is modelled as the chronological list of turns of one session,
  and each SQL query of the source is embedded as the corresponding pure
  list query;
* the three external collaborators (cancellation service, retrieval engine,
  text generation) are oracle parameters of the endpoint function.

Character-class scope: Python 3 `str.lower`, `\w`, `\d` and `\s` are
Unicode-aware; this embedding is faithful on the alphabet the repository
actually uses (ASCII plus the Turkish letters çğıöşü / ÇĞİÖŞÜ, ASCII digits,
ASCII whitespace), which covers every literal of the source and every input
the claims quantify over.
-/

namespace ChatbotGenai

/-! ### Characters and strings -/

/-- ASCII decimal digit ('0'–'9', code points 48–57), the digits Python's
`\d` matches on this alphabet. -/
def isAsciiDigit (c : Char) : Bool := 48 ≤ c.toNat && c.toNat ≤ 57

/-- Whitespace recognised by Python's `str.strip`, `str.split` and `\s`
(ASCII range: space, tab, newline, carriage return, vertical tab, form feed). -/
def isPySpace (c : Char) : Bool :=
  c == ' ' || c == '\t' || c == '\n' || c == '\r' || c == '\x0b' || c == '\x0c'

/-- The Turkish letters occurring in the source, lower and upper case. -/
def turkishLetters : List Char :=
  ['ç', 'ğ', 'ı', 'ö', 'ş', 'ü', 'Ç', 'Ğ', 'İ', 'Ö', 'Ş', 'Ü']

/-- Word character for Python's `\b` boundary on this repository's alphabet:
ASCII letters, ASCII digits, underscore, Turkish letters. -/
def isWordChar (c : Char) : Bool :=
  c.isAlpha || isAsciiDigit c || c == '_' || turkishLetters.contains c

/-- Case folding used for the `re.IGNORECASE` searches: ASCII upper case to
lower case, Turkish upper case to the corresponding lower-case letter
(`İ` folds to plain `i`, as Python's regex case folding relates them). -/
def foldChar (c : Char) : Char :=
  if 65 ≤ c.toNat && c.toNat ≤ 90 then Char.ofNat (c.toNat + 32)
  else if c == 'Ç' then 'ç'
  else if c == 'Ğ' then 'ğ'
  else if c == 'Ö' then 'ö'
  else if c == 'Ş' then 'ş'
  else if c == 'Ü' then 'ü'
  else if c == 'İ' then 'i'
  else c

/-- Python `str.lower` on one character of this repository's alphabet.
`'İ'.lower()` in Python yields the two characters `i` followed by the
combining dot above (U+0307); every other relevant character lowers to a
single character. -/
def pyLowerChars (c : Char) : List Char :=
  if 65 ≤ c.toNat && c.toNat ≤ 90 then [Char.ofNat (c.toNat + 32)]
  else if c == 'Ç' then ['ç']
  else if c == 'Ğ' then ['ğ']
  else if c == 'Ö' then ['ö']
  else if c == 'Ş' then ['ş']
  else if c == 'Ü' then ['ü']
  else if c == 'İ' then ['i', '̇']
  else [c]

/-- Python `str.lower` on a string. -/
def pyLower (s : String) : String := String.mk (s.data.map pyLowerChars).flatten

/-- Does `hay` start with `needle` (exact characters)? -/
def startsWithChars : List Char → List Char → Bool
  | [], _ => true
  | _ :: _, [] => false
  | a :: as, b :: bs => a == b && startsWithChars as bs

/-- Substring containment on character lists (Python's `needle in hay`). -/
def charsContain (needle : List Char) : List Char → Bool
  | [] => needle.isEmpty
  | c :: t => startsWithChars needle (c :: t) || charsContain needle t

/-- Python's `needle in hay` on strings. -/
def strContains (hay needle : String) : Bool := charsContain needle.data hay.data

/-- Drop trailing characters satisfying `p`. -/
def dropTrailing (p : Char → Bool) (cs : List Char) : List Char :=
  (cs.reverse.dropWhile p).reverse

/-- Python `str.strip()` on a character list. -/
def stripChars (cs : List Char) : List Char :=
  dropTrailing isPySpace (cs.dropWhile isPySpace)

/-- Python `str.strip()` on a string. -/
def pyStrip (s : String) : String := String.mk (stripChars s.data)

/-- Number of whitespace-separated tokens: `len(s.split())` in Python. -/
def tokenCount (cs : List Char) : Nat :=
  (cs.foldl
    (fun (st : Nat × Bool) c =>
      if isPySpace c then (st.1, false)
      else if st.2 then st else (st.1 + 1, true))
    (0, false)).1

/-- Does `re.match(r'^\d+$', ·)` succeed: nonempty and all ASCII digits. -/
def isNumericChars (cs : List Char) : Bool :=
  !cs.isEmpty && cs.all isAsciiDigit

/-- Python truthiness of an optional string: present and nonempty. -/
def truthy : Option String → Bool
  | none => false
  | some s => !(s == "")

/-! ### The order-number regular expression

`re.search(r"(ORD[-]?\d+|\b\d{3,}\b)", message, re.IGNORECASE)`:
leftmost match; at each position the `ORD[-]?\d+` alternative is tried
first, then the bounded digit run `\b\d{3,}\b`. -/

/-- Case-insensitive literal match: consume `kw` (given folded) from the
front of `s`, returning the consumed original characters. -/
def matchLit : List Char → List Char → Option (List Char)
  | [], _ => some []
  | _ :: _, [] => none
  | k :: ks, c :: cs =>
    if foldChar c == k then (matchLit ks cs).map (c :: ·) else none

/-- Greedy run of ASCII digits: the run and the rest. -/
def takeDigits : List Char → List Char × List Char
  | [] => ([], [])
  | c :: cs =>
    if isAsciiDigit c then
      let (ds, rest) := takeDigits cs
      (c :: ds, rest)
    else ([], c :: cs)

/-- Try the `ORD[-]?\d+` alternative at the current position.  After the
(case-insensitive) letters `ORD`, a hyphen is consumed when a digit run
follows it; otherwise at least one digit must follow directly (the optional
hyphen backtracks to empty, which then still requires a digit). -/
def matchOrdAt (s : List Char) : Option (List Char) :=
  match matchLit ['o', 'r', 'd'] s with
  | none => none
  | some pre =>
    let rest := s.drop 3
    match rest with
    | '-' :: rest2 =>
      let (ds, _) := takeDigits rest2
      if ds.isEmpty then none else some (pre ++ '-' :: ds)
    | other =>
      let (ds, _) := takeDigits other
      if ds.isEmpty then none else some (pre ++ ds)

/-- Try the `\b\d{3,}\b` alternative at the current position, given the
previous character (`none` at the start of the string).  The greedy maximal
digit run is taken; shorter splits cannot restore the trailing boundary, so
no backtracking arises. -/
def matchNumAt (prev : Option Char) (s : List Char) : Option (List Char) :=
  let boundaryBefore := match prev with
    | none => true
    | some p => !isWordChar p
  if !boundaryBefore then none
  else
    let (ds, rest) := takeDigits s
    if ds.length ≥ 3 then
      match rest with
      | [] => some ds
      | c :: _ => if isWordChar c then none else some ds
    else none

/-- Leftmost-match scan of the order-number pattern. -/
def searchOrder (prev : Option Char) : List Char → Option (List Char)
  | [] => none
  | c :: rest =>
    match matchOrdAt (c :: rest) with
    | some m => some m
    | none =>
      match matchNumAt prev (c :: rest) with
      | some m => some m
      | none => searchOrder (some c) rest

/-! ### The reason patterns -/

/-- Consume the one optional colon or hyphen of `[:\-]?` after the marker. -/
def dropPunct : List Char → List Char
  | ':' :: r => r
  | '-' :: r => r
  | r => r

/-- The group of `re.search(r"sebep[:\-]?\s*(.*)", message, re.IGNORECASE)`
when the marker matches at the current position: after the literal `sebep`,
one optional `:` or `-`, then greedy `\s*`, then `.*` up to the end of the
line (`.` does not cross a newline). -/
def matchSebepAt (s : List Char) : Option (List Char) :=
  match matchLit ['s', 'e', 'b', 'e', 'p'] s with
  | none => none
  | some _ =>
    let rest2 := dropPunct (s.drop 5)
    let rest3 := rest2.dropWhile isPySpace
    some (rest3.takeWhile (fun c => !(c == '\n')))

/-- Leftmost-match scan of the `sebep` marker pattern, returning group 1. -/
def searchSebep : List Char → Option (List Char)
  | [] => none
  | c :: rest =>
    match matchSebepAt (c :: rest) with
    | some g => some g
    | none => searchSebep rest

/-- The fixed reason-keyword alternation of the source, in its alternation
order, pre-folded to lower case. -/
def reasonKeywords : List (List Char) :=
  ["hasarlı", "bozuk", "iade", "yanlış", "defolu", "beğenmedim",
   "uygun değil", "fikrim değişti", "fikir değiştirdim", "istemiyorum",
   "artık gerek yok", "kalitesiz", "kötü", "iyi değil"].map String.data

/-- Try each keyword of the alternation, in order, at the current position. -/
def matchKeywordAt (s : List Char) : Option (List Char) :=
  reasonKeywords.findSome? (fun kw => matchLit kw s)

/-- Leftmost-match scan of the reason-keyword alternation. -/
def searchKeyword : List Char → Option (List Char)
  | [] => none
  | c :: rest =>
    match matchKeywordAt (c :: rest) with
    | some m => some m
    | none => searchKeyword rest

/-- Words whose presence in `message.lower()` blocks the short-message
fallback of `extract_order_and_reason`. -/
def orderWords : List String := ["sipariş", "numara", "order", "number"]

/-! ### `extract_order_and_reason` -/

/-- Embedding of `extract_order_and_reason(message)`:
the first order-code match, and the reason found by, in priority order,
the `sebep` marker pattern, the keyword alternation, or the short-message
fallback (at most 3 tokens, not purely numeric, no order-related word). -/
def extract_order_and_reason (message : String) : Option String × Option String :=
  let order_number := (searchOrder none message.data).map String.mk
  let reason : Option String :=
    match searchSebep message.data with
    | some g => some (String.mk (stripChars g))
    | none =>
      match searchKeyword message.data with
      | some m => some (String.mk m)
      | none =>
        if tokenCount message.data ≤ 3
            && !isNumericChars (stripChars message.data)
            && !(orderWords.any (fun w => strContains (pyLower message) w)) then
          some (pyStrip message)
        else none
  (order_number, reason)

/-! ### Sessions and turns

The database of one session is modelled as the chronological list of its
turns; the source's SQL queries become pure list queries. -/

/-- Author of a turn. -/
inductive Role where
  | user
  | assistant
deriving DecidableEq, Repr

/-- One persisted chat message. -/
structure Turn where
  role : Role
  content : String
deriving DecidableEq, Repr

/-- The `role` column as stored ("user" / "assistant"). -/
def roleStr : Role → String
  | .user => "user"
  | .assistant => "assistant"

/-- `SELECT content ... WHERE role = 'assistant' ORDER BY created_at DESC
LIMIT 1`: the content of the most recent assistant turn, if any. -/
def lastAssistantContent (h : List Turn) : Option String :=
  ((h.filter (fun t => t.role == Role.assistant)).map Turn.content).getLast?

/-- `SELECT content ... WHERE role = 'user' ORDER BY created_at DESC
LIMIT 10`: the contents of the 10 most recent user turns, newest first. -/
def recentUserContents (h : List Turn) : List String :=
  (((h.filter (fun t => t.role == Role.user)).map Turn.content).reverse).take 10

/-! ### `assistant_recently_asked_for_details` (Dialogue-State Classifier) -/

/-- The phrase test of `assistant_recently_asked_for_details` on the
(lower-cased) text of the most recent assistant turn. -/
def awaitingOfText (txt : String) : Bool :=
  if strContains txt "başarıyla iptal edildi" || strContains txt "✅" then false
  else
    let has_order := strContains txt "sipariş numaranız"
      || strContains txt "sipariş numarasını" || strContains txt "sipariş"
    let has_reason := strContains txt "iptal nedenini"
      || strContains txt "sebep" || strContains txt "nedeni"
    let has_iptal := strContains txt "iptal işlemi"
      || strContains txt "işlemi" || strContains txt "iptal"
    (has_order || has_reason) && has_iptal

/-- Embedding of `assistant_recently_asked_for_details(session_id)` over the
session's turn list: false with no assistant turn, otherwise the phrase test
on the lower-cased most recent assistant content. -/
def assistant_recently_asked_for_details (h : List Turn) : Bool :=
  match lastAssistantContent h with
  | none => false
  | some content => awaitingOfText (pyLower content)

/-! ### `get_session_context_for_order` (Context Aggregator) -/

/-- Words that disqualify a history-recovered candidate reason. -/
def badReasonWords : List String :=
  ["iptal", "merhaba", "selam", "hello", "hi", "iyi günler", "günaydın"]

/-- Is a candidate reason from history accepted: present, nonempty, not
purely numeric after stripping, and containing no greeting/cancel word
case-insensitively. -/
def acceptableReason (r : String) : Bool :=
  !isNumericChars (stripChars r.data)
    && !(badReasonWords.any (fun w => strContains (pyLower r) w))

/-- The scanning loop of `get_session_context_for_order`: newest-first over
the recent user contents, filling each slot with the first hit and stopping
once both are filled. -/
def contextLoop : List String → Option String → Option String →
    Option String × Option String
  | [], o, r => (o, r)
  | msg :: rest, o, r =>
    let (mo, mr) := extract_order_and_reason msg
    let o' := if truthy mo && !truthy o then mo else o
    let r' := match mr with
      | some s =>
        if truthy mr && !truthy r && acceptableReason s then mr else r
      | none => r
    if truthy o' && truthy r' then (o', r') else contextLoop rest o' r'

/-- Embedding of `get_session_context_for_order(session_id)`. -/
def get_session_context_for_order (h : List Turn) : Option String × Option String :=
  contextLoop (recentUserContents h) none none

/-! ### `call_order_api` (Action Invoker) -/

/-- Outcome of the HTTP POST to the cancellation service, as an oracle:
either a response with a status code and body text, or a raised
transport-level exception with its message. -/
inductive HttpOutcome where
  | resp (status : Nat) (body : String)
  | exc (msg : String)
deriving DecidableEq, Repr

/-- The `tool_info` dictionary built by `call_order_api`. -/
structure ToolInfo where
  tool_name : String
  endpoint : String
  method : String
  request_order : String
  request_reason : String
  response_status : Option Nat
  response_data : Option String
  error : Option String
deriving DecidableEq, Repr

/-- Embedding of `call_order_api(order_number, reason)`, parametrised by the
service base URL and the HTTP outcome.  Total: every outcome is normalised
to a result text plus the audit record (the function never raises). -/
def call_order_api (baseUrl order_number reason : String)
    (outcome : HttpOutcome) : String × ToolInfo :=
  let base : ToolInfo :=
    { tool_name := "cancel_order"
      endpoint := baseUrl ++ "/cancel"
      method := "POST"
      request_order := order_number
      request_reason := reason
      response_status := none
      response_data := none
      error := none }
  match outcome with
  | .resp status body =>
    if status == 204 then
      ("✅ Sipariş " ++ order_number ++ " başarıyla iptal edildi. Sebep: " ++ reason,
       { base with response_status := some 204,
                   response_data := some "Order cancelled successfully" })
    else
      ("❌ Sipariş iptal edilemedi. Status: " ++ toString status
         ++ ", Response: " ++ body,
       { base with response_status := some status, response_data := some body })
  | .exc e =>
    ("❌ Sipariş iptalinde hata: " ++ e, { base with error := some e })

/-! ### `chat_endpoint` (Intent Resolver) -/

/-- One retrieved passage with its metadata. -/
structure Passage where
  content : String
  source : String
  chunk : String
deriving DecidableEq, Repr

/-- Outcome of the vector-store similarity search, as an oracle: the result
list, or a raised exception. -/
inductive RetrievalOutcome where
  | ok (results : List Passage)
  | err
deriving DecidableEq, Repr

/-- The external collaborators of one request. -/
structure ChatDeps where
  baseUrl : String
  apiOutcome : HttpOutcome
  retrieval : RetrievalOutcome
  gen : String → String

/-- One persisted `chat_actions` row. -/
structure ActionRec where
  action_name : String
  arg_order : String
  arg_reason : String
  result : String
deriving DecidableEq, Repr

/-- Which branch of the resolver produced the response. -/
inductive Branch where
  | execute
  | clarify
  | ragEmpty
  | ragError
  | ragGen
deriving DecidableEq, Repr

/-- Everything one `/chat` request produces: the HTTP response fields, the
rows appended to the database during the request (in write order), which
branch answered, and whether text generation was invoked. -/
structure ChatResult where
  answer : String
  sources : List String
  toolCalls : List ToolInfo
  savedMessages : List Turn
  savedActions : List ActionRec
  branch : Branch
  genCalled : Bool
deriving DecidableEq

/-- Fixed message when retrieval returns no usable passages. -/
def noDataMsg : String :=
  "⚠️ Üzgünüm, şu anda sistem bilgi bankasında veri bulunmuyor. Lütfen daha sonra tekrar deneyin veya müşteri hizmetleri ile iletişime geçin."

/-- Fixed message when the retrieval backend raises. -/
def dbErrMsg : String :=
  "⚠️ Üzgünüm, şu anda sistem veritabanına erişimde sorun yaşanıyor. Lütfen daha sonra tekrar deneyin veya müşteri hizmetleri ile iletişime geçin."

/-- The proactive cancellation offer appended on cancel/return intent. -/
def offerSuffix : String :=
  "\n\nEğer isterseniz buradan sipariş numaranızı ve iptal nedeninizi paylaşırsanız, ben de iptal işleminizi gerçekleştirebilirim."

/-- The generation prompt assembled by the endpoint. -/
def promptOf (context_messages message docs_text : String) : String :=
  "\nSen bir müşteri destek asistanısın. Türkçe yanıt ver.\n\nGeçmiş konuşma:\n"
    ++ context_messages ++ "\n\nKullanıcının yeni mesajı:\n" ++ message
    ++ "\n\nİlgili dökümanlardan bilgiler:\n" ++ docs_text
    ++ "\n\nCevabını sadece Türkçe ver ve yardımcı ol.\n"

/-- The retrieval-fallback tail of `chat_endpoint` (the RAG section), over
the history including the just-persisted user turn. -/
def ragFallback (deps : ChatDeps) (h1 : List Turn) (msg : String) : ChatResult :=
  let userTurn : Turn := ⟨Role.user, msg⟩
  match deps.retrieval with
  | .err =>
    { answer := dbErrMsg, sources := [], toolCalls := []
      savedMessages := [userTurn, ⟨Role.assistant, dbErrMsg⟩]
      savedActions := [], branch := .ragError, genCalled := false }
  | .ok results =>
    let docs_text := String.intercalate "\n" (results.map Passage.content)
    if pyStrip docs_text == "" then
      { answer := noDataMsg, sources := [], toolCalls := []
        savedMessages := [userTurn, ⟨Role.assistant, noDataMsg⟩]
        savedActions := [], branch := .ragEmpty, genCalled := false }
    else
      let sources := results.map (fun r => r.source ++ " - chunk " ++ r.chunk)
      let context_messages := String.intercalate "\n"
        (h1.map (fun t => roleStr t.role ++ ": " ++ t.content))
      let answer0 := deps.gen (promptOf context_messages msg docs_text)
      let msgLower := pyLower msg
      let cancelIntent := strContains msgLower "iptal" || strContains msgLower "iade"
      let answer := if cancelIntent then answer0 ++ offerSuffix else answer0
      { answer := answer, sources := sources, toolCalls := []
        savedMessages := [userTurn, ⟨Role.assistant, answer⟩]
        savedActions := [], branch := .ragGen, genCalled := true }

/-- Embedding of `chat_endpoint(req)` for one session, over the session's
prior history `h` and the request message `msg`.  The user turn is persisted
first, so all subsequent reads (classifier, context aggregator, full
history) see `h ++ [user msg]`, exactly as the source's autocommitted
inserts make them. -/
def chat_endpoint (deps : ChatDeps) (h : List Turn) (msg : String) : ChatResult :=
  let userTurn : Turn := ⟨Role.user, msg⟩
  let h1 := h ++ [userTurn]
  let e := extract_order_and_reason msg
  let combined :=
    if !truthy e.1 || !truthy e.2 then
      let c := get_session_context_for_order h1
      (if truthy e.1 then e.1 else c.1, if truthy e.2 then e.2 else c.2)
    else e
  let current := extract_order_and_reason msg
  let current_order := current.1
  let current_reason := current.2
  let final_order := if truthy current_order then current_order else combined.1
  let awaiting := assistant_recently_asked_for_details h1
  let numericCur := match current_reason with
    | some s => isNumericChars (stripChars s.data)
    | none => false
  if awaiting && truthy final_order && truthy current_reason && !numericCur then
    let fo := final_order.getD ""
    let cr := current_reason.getD ""
    let (result, tool) := call_order_api deps.baseUrl fo cr deps.apiOutcome
    { answer := result, sources := [], toolCalls := [tool]
      savedMessages := [userTurn, ⟨Role.assistant, result⟩]
      savedActions := [⟨"cancel_order", fo, cr, result⟩]
      branch := .execute, genCalled := false }
  else if awaiting then
    let missing := (if !truthy final_order then ["sipariş numarası"] else [])
      ++ (if !truthy current_reason then ["sebep"] else [])
    if !missing.isEmpty then
      let ask := String.intercalate " ve " missing
      let answer := "İptal işlemi için " ++ ask ++ " bilgisini paylaşır mısınız?"
      { answer := answer, sources := [], toolCalls := []
        savedMessages := [userTurn, ⟨Role.assistant, answer⟩]
        savedActions := [], branch := .clarify, genCalled := false }
    else ragFallback deps h1 msg
  else ragFallback deps h1 msg

/-! ### Statement-support definitions

Named views of the endpoint's internal quantities, used to state the
properties; each is proved to coincide with the endpoint's internals. -/

/-- `final_order` of the endpoint: the current message's order number when
present (truthy), else the one recovered from session history. -/
def finalOrder (h1 : List Turn) (msg : String) : Option String :=
  let cur := (extract_order_and_reason msg).1
  if truthy cur then cur else (get_session_context_for_order h1).1

/-- The execute-branch guard: Dialogue-State Classifier reports
awaiting-details, `final_order` present, the current message's reason
present, and that reason not purely numeric after stripping. -/
def executeCond (h1 : List Turn) (msg : String) : Bool :=
  assistant_recently_asked_for_details h1
    && truthy (finalOrder h1 msg)
    && truthy (extract_order_and_reason msg).2
    && !(match (extract_order_and_reason msg).2 with
          | some s => isNumericChars (stripChars s.data)
          | none => false)

/-- The pieces named by the clarification question: "sipariş numarası" when
`final_order` is absent, "sebep" when the current message's reason is
absent. -/
def missingPieces (h1 : List Turn) (msg : String) : List String :=
  (if truthy (finalOrder h1 msg) then [] else ["sipariş numarası"])
    ++ (if truthy (extract_order_and_reason msg).2 then [] else ["sebep"])

/-- A history-recovered candidate reason as the Context Aggregator accepts
it: present, nonempty, and passing `acceptableReason`. -/
def acceptedReasonOf (m : String) : Option String :=
  match (extract_order_and_reason m).2 with
  | none => none
  | some r => if !(r == "") && acceptableReason r then some r else none

/-- The first (truthy) order number the Entity Extractor yields across a
message list, per the claim's description of the Context Aggregator. -/
def firstOrderIn : List String → Option String
  | [] => none
  | m :: rest =>
    let mo := (extract_order_and_reason m).1
    if truthy mo then mo else firstOrderIn rest

/-- The first accepted reason across a message list, per the claim's
description of the Context Aggregator. -/
def firstAcceptedReasonIn : List String → Option String
  | [] => none
  | m :: rest =>
    match acceptedReasonOf m with
    | some r => some r
    | none => firstAcceptedReasonIn rest

/-- Modelled from the claim's wording for C7: at a position where the
(case-insensitive) marker `sebep` matches, the text following the marker —
minus one optional colon or hyphen — up to the END OF THE MESSAGE, trimmed. -/
def specTrailingAt (s : List Char) : Option (List Char) :=
  match matchLit ['s', 'e', 'b', 'e', 'p'] s with
  | none => none
  | some _ => some (stripChars (dropPunct (s.drop 5)))

/-- Modelled from the claim's wording for C7: the trailing-text reason at
the first position where the marker matches. -/
def specTrailingReason : List Char → Option (List Char)
  | [] => none
  | c :: rest =>
    match specTrailingAt (c :: rest) with
    | some g => some g
    | none => specTrailingReason rest

/-- String version of `specTrailingReason`. -/
def specTrailingReasonS (msg : String) : Option String :=
  (specTrailingReason msg.data).map String.mk

/-! ## Theorems -/

/-- Branch normal form of the endpoint: the resolver executes exactly under
`executeCond`, else clarifies exactly when awaiting-details with a nonempty
missing-piece list, else runs the retrieval fallback. -/
theorem chat_endpoint_eq_branches (deps : ChatDeps) (h : List Turn) (msg : String) :
    chat_endpoint deps h msg =
      (if executeCond (h ++ [⟨Role.user, msg⟩]) msg then
        let fo := (finalOrder (h ++ [⟨Role.user, msg⟩]) msg).getD ""
        let cr := ((extract_order_and_reason msg).2).getD ""
        let rt := call_order_api deps.baseUrl fo cr deps.apiOutcome
        ⟨rt.1, [], [rt.2], [⟨Role.user, msg⟩, ⟨Role.assistant, rt.1⟩],
         [⟨"cancel_order", fo, cr, rt.1⟩], .execute, false⟩
      else if assistant_recently_asked_for_details (h ++ [⟨Role.user, msg⟩])
              && !(missingPieces (h ++ [⟨Role.user, msg⟩]) msg).isEmpty then
        let answer := "İptal işlemi için "
          ++ String.intercalate " ve " (missingPieces (h ++ [⟨Role.user, msg⟩]) msg)
          ++ " bilgisini paylaşır mısınız?"
        ⟨answer, [], [], [⟨Role.user, msg⟩, ⟨Role.assistant, answer⟩], [], .clarify, false⟩
      else ragFallback deps (h ++ [⟨Role.user, msg⟩]) msg) := by
  unfold chat_endpoint executeCond missingPieces finalOrder
  cases he1 : truthy (extract_order_and_reason msg).1 <;>
    cases he2 : truthy (extract_order_and_reason msg).2 <;>
      cases ha : assistant_recently_asked_for_details (h ++ [⟨Role.user, msg⟩]) <;>
        cases hc : truthy (get_session_context_for_order (h ++ [⟨Role.user, msg⟩])).1 <;>
          simp [ha, he1, he2, hc]

/-- The retrieval fallback never writes an action record. -/
theorem ragFallback_savedActions (deps : ChatDeps) (h1 : List Turn) (msg : String) :
    (ragFallback deps h1 msg).savedActions = [] := by
  unfold ragFallback
  cases deps.retrieval
  · simp only
    split <;> rfl
  · rfl

/-- The retrieval fallback answers through one of the three RAG outcomes. -/
theorem ragFallback_branch (deps : ChatDeps) (h1 : List Turn) (msg : String) :
    (ragFallback deps h1 msg).branch = Branch.ragError
      ∨ (ragFallback deps h1 msg).branch = Branch.ragEmpty
      ∨ (ragFallback deps h1 msg).branch = Branch.ragGen := by
  unfold ragFallback
  cases deps.retrieval
  · simp only
    split
    · exact Or.inr (Or.inl rfl)
    · exact Or.inr (Or.inr rfl)
  · exact Or.inl rfl

/-- A string whose stripped form is purely numeric is nonempty. -/
theorem ne_empty_of_numeric (r : String)
    (hnum : isNumericChars (stripChars r.data) = true) : (r == "") = false := by
  by_cases hr : r = ""
  · subst hr; simp [stripChars, dropTrailing, isNumericChars] at hnum
  · simpa using hr

/-- C9: `call_order_api` is total (never raises past its boundary) and
normalises: a 204 response to the fixed success message embedding the order
number and reason; any other status to the fixed failure message embedding
the status and raw body; a transport exception to the fixed error message
embedding the exception text; in all three cases it returns the audit
record with the endpoint, method, request payload, response status,
response body and error. -/
theorem C9_action_invoker_total (u o r : String) :
    (∀ body : String, call_order_api u o r (.resp 204 body) =
      ("✅ Sipariş " ++ o ++ " başarıyla iptal edildi. Sebep: " ++ r,
       ⟨"cancel_order", u ++ "/cancel", "POST", o, r, some 204,
        some "Order cancelled successfully", none⟩))
    ∧ (∀ (s : Nat) (body : String), s ≠ 204 →
        call_order_api u o r (.resp s body) =
          ("❌ Sipariş iptal edilemedi. Status: " ++ toString s
             ++ ", Response: " ++ body,
           ⟨"cancel_order", u ++ "/cancel", "POST", o, r, some s, some body, none⟩))
    ∧ (∀ e : String, call_order_api u o r (.exc e) =
        ("❌ Sipariş iptalinde hata: " ++ e,
         ⟨"cancel_order", u ++ "/cancel", "POST", o, r, none, none, some e⟩)) := by
  refine ⟨fun body => rfl, fun s body hs => ?_, fun e => rfl⟩
  simp [call_order_api, hs]

/-- C9 witness: a concrete non-204 response is normalised to the failure
message and audit record. -/
theorem C9_action_invoker_total_witness :
    call_order_api "http://order-api:8002" "ORD-1" "hasarlı" (.resp 404 "not found") =
      ("❌ Sipariş iptal edilemedi. Status: 404, Response: not found",
       ⟨"cancel_order", "http://order-api:8002/cancel", "POST", "ORD-1", "hasarlı",
        some 404, some "not found", none⟩) :=
  (C9_action_invoker_total "http://order-api:8002" "ORD-1" "hasarlı").2.1
    404 "not found" (by decide)

/-- C2 counterexample: the claim requires an order-number-request phrase for
the classifier to report true, but on a latest assistant turn containing a
reason phrase and a process phrase yet no order phrase (and no success
marker) the code still reports true. -/
theorem C2_counterexample :
    assistant_recently_asked_for_details [⟨Role.assistant, "sebep işlemi"⟩] = true
    ∧ strContains (pyLower "sebep işlemi") "sipariş numaranız" = false
    ∧ strContains (pyLower "sebep işlemi") "sipariş numarasını" = false
    ∧ strContains (pyLower "sebep işlemi") "sipariş" = false
    ∧ strContains (pyLower "sebep işlemi") "başarıyla iptal edildi" = false
    ∧ strContains (pyLower "sebep işlemi") "✅" = false := by decide

/-- C2 (amended): for every session, the classifier returns false when no
assistant turn exists; false when the most recent assistant turn's
lower-cased text contains a cancellation-success marker, regardless of
earlier turns; and otherwise returns true iff that text contains (an
order-number-request phrase OR a reason-request phrase) AND a generic
cancellation-process phrase. -/
theorem C2_classifier_amended (h : List Turn) :
    (lastAssistantContent h = none → assistant_recently_asked_for_details h = false)
    ∧ (∀ c, lastAssistantContent h = some c →
        (strContains (pyLower c) "başarıyla iptal edildi" = true
          ∨ strContains (pyLower c) "✅" = true) →
        assistant_recently_asked_for_details h = false)
    ∧ (∀ c, lastAssistantContent h = some c →
        strContains (pyLower c) "başarıyla iptal edildi" = false →
        strContains (pyLower c) "✅" = false →
        (assistant_recently_asked_for_details h = true ↔
          ((strContains (pyLower c) "sipariş numaranız" = true
              ∨ strContains (pyLower c) "sipariş numarasını" = true
              ∨ strContains (pyLower c) "sipariş" = true)
            ∨ (strContains (pyLower c) "iptal nedenini" = true
              ∨ strContains (pyLower c) "sebep" = true
              ∨ strContains (pyLower c) "nedeni" = true))
          ∧ (strContains (pyLower c) "iptal işlemi" = true
            ∨ strContains (pyLower c) "işlemi" = true
            ∨ strContains (pyLower c) "iptal" = true))) := by
  refine ⟨fun hn => ?_, fun c hc hm => ?_, fun c hc h1 h2 => ?_⟩
  · simp [assistant_recently_asked_for_details, hn]
  · rcases hm with hm | hm <;>
      simp [assistant_recently_asked_for_details, hc, awaitingOfText, hm]
  · simp [assistant_recently_asked_for_details, hc, awaitingOfText, h1, h2,
      Bool.or_eq_true, Bool.and_eq_true, and_comm, or_comm]
    tauto

/-- C2 witness: a latest assistant turn carrying the success checkmark makes
the classifier report false. -/
theorem C2_classifier_amended_witness :
    assistant_recently_asked_for_details [⟨Role.assistant, "✅ tamam"⟩] = false :=
  (C2_classifier_amended [⟨Role.assistant, "✅ tamam"⟩]).2.1 "✅ tamam"
    (by decide) (Or.inr (by decide))

/-- Truthiness of an optional string unpacked. -/
theorem truthy_eq_true_iff (o : Option String) :
    truthy o = true ↔ ∃ s, o = some s ∧ (s == "") = false := by
  cases o <;> simp [truthy]

/-- Under the execute guard, the endpoint returns exactly the execute-branch
record for the final order and current reason. -/
theorem chat_endpoint_eq_execute (deps : ChatDeps) (h : List Turn) (msg : String)
    (fo cr : String)
    (hfo : finalOrder (h ++ [⟨Role.user, msg⟩]) msg = some fo)
    (hcr : (extract_order_and_reason msg).2 = some cr)
    (hexec : executeCond (h ++ [⟨Role.user, msg⟩]) msg = true) :
    chat_endpoint deps h msg =
      ⟨(call_order_api deps.baseUrl fo cr deps.apiOutcome).1, [],
       [(call_order_api deps.baseUrl fo cr deps.apiOutcome).2],
       [⟨Role.user, msg⟩,
        ⟨Role.assistant, (call_order_api deps.baseUrl fo cr deps.apiOutcome).1⟩],
       [⟨"cancel_order", fo, cr, (call_order_api deps.baseUrl fo cr deps.apiOutcome).1⟩],
       Branch.execute, false⟩ := by
  rw [chat_endpoint_eq_branches]
  simp [hexec, hfo, hcr]

/-- Under the clarify guard, the endpoint returns exactly the clarification
record for the missing pieces. -/
theorem chat_endpoint_eq_clarify (deps : ChatDeps) (h : List Turn) (msg : String)
    (hexec : executeCond (h ++ [⟨Role.user, msg⟩]) msg = false)
    (hA : assistant_recently_asked_for_details (h ++ [⟨Role.user, msg⟩]) = true)
    (hne : (missingPieces (h ++ [⟨Role.user, msg⟩]) msg).isEmpty = false) :
    chat_endpoint deps h msg =
      ⟨"İptal işlemi için "
         ++ String.intercalate " ve " (missingPieces (h ++ [⟨Role.user, msg⟩]) msg)
         ++ " bilgisini paylaşır mısınız?", [], [],
       [⟨Role.user, msg⟩,
        ⟨Role.assistant, "İptal işlemi için "
          ++ String.intercalate " ve " (missingPieces (h ++ [⟨Role.user, msg⟩]) msg)
          ++ " bilgisini paylaşır mısınız?"⟩],
       [], Branch.clarify, false⟩ := by
  rw [chat_endpoint_eq_branches]
  simp [hexec, hA, hne]

/-- When neither the execute nor the clarify guard holds, the endpoint runs
the retrieval fallback. -/
theorem chat_endpoint_eq_ragFallback (deps : ChatDeps) (h : List Turn) (msg : String)
    (hexec : executeCond (h ++ [⟨Role.user, msg⟩]) msg = false)
    (hclar : (assistant_recently_asked_for_details (h ++ [⟨Role.user, msg⟩])
        && !(missingPieces (h ++ [⟨Role.user, msg⟩]) msg).isEmpty) = false) :
    chat_endpoint deps h msg = ragFallback deps (h ++ [⟨Role.user, msg⟩]) msg := by
  rw [chat_endpoint_eq_branches]
  simp [hexec, hclar]

/-- C1: for every inbound /chat request, the resolver takes the execute
branch (invoking the Action Invoker) iff the Dialogue-State Classifier
reports awaiting-details AND final_order is present AND the current
message's reason is present AND that reason is not purely numeric; an
ActionRecord is written exactly when the execute branch fires; when it
fires with final order `fo` and current reason `cr`, the invoker is called
with `(fo, cr)`, the ActionRecord carries exactly those arguments, the
result is persisted as the assistant turn and returned with no further
processing; and with no current-message reason no ActionRecord is ever
written (a reason recoverable only from older history never triggers
execution). -/
theorem C1_execute_iff_action (deps : ChatDeps) (h : List Turn) (msg : String) :
    ((chat_endpoint deps h msg).branch = Branch.execute
        ↔ executeCond (h ++ [⟨Role.user, msg⟩]) msg = true)
    ∧ ((chat_endpoint deps h msg).savedActions ≠ []
        ↔ (chat_endpoint deps h msg).branch = Branch.execute)
    ∧ (∀ fo cr, finalOrder (h ++ [⟨Role.user, msg⟩]) msg = some fo →
        (extract_order_and_reason msg).2 = some cr →
        executeCond (h ++ [⟨Role.user, msg⟩]) msg = true →
        chat_endpoint deps h msg =
          ⟨(call_order_api deps.baseUrl fo cr deps.apiOutcome).1, [],
           [(call_order_api deps.baseUrl fo cr deps.apiOutcome).2],
           [⟨Role.user, msg⟩,
            ⟨Role.assistant, (call_order_api deps.baseUrl fo cr deps.apiOutcome).1⟩],
           [⟨"cancel_order", fo, cr, (call_order_api deps.baseUrl fo cr deps.apiOutcome).1⟩],
           Branch.execute, false⟩)
    ∧ ((extract_order_and_reason msg).2 = none →
        (chat_endpoint deps h msg).savedActions = []) := by
  by_cases hex : executeCond (h ++ [⟨Role.user, msg⟩]) msg = true
  · have hparts := hex
    unfold executeCond at hparts
    simp only [Bool.and_eq_true] at hparts
    obtain ⟨⟨⟨-, hto⟩, htr⟩, -⟩ := hparts
    obtain ⟨fo, hfo, -⟩ := (truthy_eq_true_iff _).1 hto
    obtain ⟨cr, hcr, -⟩ := (truthy_eq_true_iff _).1 htr
    have hmain := chat_endpoint_eq_execute deps h msg fo cr hfo hcr hex
    rw [hmain]
    refine ⟨by simp [hex], by simp, ?_, ?_⟩
    · intro fo' cr' hfo' hcr' _
      rw [hfo] at hfo'
      rw [hcr] at hcr'
      obtain rfl : fo = fo' := by injection hfo'
      obtain rfl : cr = cr' := by injection hcr'
      rfl
    · intro hnone
      rw [hnone] at hcr
      cases hcr
  · have hex' : executeCond (h ++ [⟨Role.user, msg⟩]) msg = false := by
      simpa using hex
    by_cases hcl : (assistant_recently_asked_for_details (h ++ [⟨Role.user, msg⟩])
        && !(missingPieces (h ++ [⟨Role.user, msg⟩]) msg).isEmpty) = true
    · rw [Bool.and_eq_true] at hcl
      obtain ⟨hA, hne⟩ := hcl
      have hne' : (missingPieces (h ++ [⟨Role.user, msg⟩]) msg).isEmpty = false := by
        simpa using hne
      have hmain := chat_endpoint_eq_clarify deps h msg hex' hA hne'
      rw [hmain]
      refine ⟨by simp [hex'], by simp, ?_, by simp⟩
      intro fo cr _ _ hc
      rw [hc] at hex'
      cases hex'
    · have hcl' : (assistant_recently_asked_for_details (h ++ [⟨Role.user, msg⟩])
          && !(missingPieces (h ++ [⟨Role.user, msg⟩]) msg).isEmpty) = false := by
        simpa using hcl
      have hmain := chat_endpoint_eq_ragFallback deps h msg hex' hcl'
      rw [hmain]
      have hbne : (ragFallback deps (h ++ [⟨Role.user, msg⟩]) msg).branch ≠ Branch.execute := by
        rcases ragFallback_branch deps (h ++ [⟨Role.user, msg⟩]) msg with hb | hb | hb <;>
          rw [hb] <;> intro hcon <;> cases hcon
      have hsa := ragFallback_savedActions deps (h ++ [⟨Role.user, msg⟩]) msg
      refine ⟨?_, ?_, ?_, ?_⟩
      · constructor
        · intro hbr
          exact absurd hbr hbne
        · intro hcon
          rw [hcon] at hex'
          cases hex'
      · constructor
        · intro hne
          exact absurd hsa hne
        · intro hbr
          exact absurd hbr hbne
      · intro fo cr _ _ hc
        rw [hc] at hex'
        cases hex'
      · intro _
        exact hsa

/-- C1 witness: a concrete awaiting-details session where the current
message carries both entities executes the cancellation and records the
action. -/
theorem C1_execute_iff_action_witness :
    chat_endpoint ⟨"u", .resp 204 "", .ok [], fun _ => ""⟩
        [⟨Role.assistant, "iptal için sipariş numaranızı ve sebebi paylaşın"⟩]
        "ORD-8841 hasarlı" =
      ⟨"✅ Sipariş ORD-8841 başarıyla iptal edildi. Sebep: hasarlı", [],
       [⟨"cancel_order", "u/cancel", "POST", "ORD-8841", "hasarlı", some 204,
         some "Order cancelled successfully", none⟩],
       [⟨Role.user, "ORD-8841 hasarlı"⟩,
        ⟨Role.assistant, "✅ Sipariş ORD-8841 başarıyla iptal edildi. Sebep: hasarlı"⟩],
       [⟨"cancel_order", "ORD-8841", "hasarlı",
         "✅ Sipariş ORD-8841 başarıyla iptal edildi. Sebep: hasarlı"⟩],
       Branch.execute, false⟩ := by
  have := (C1_execute_iff_action ⟨"u", .resp 204 "", .ok [], fun _ => ""⟩
      [⟨Role.assistant, "iptal için sipariş numaranızı ve sebebi paylaşın"⟩]
      "ORD-8841 hasarlı").2.2.1 "ORD-8841" "hasarlı" (by decide) (by decide) (by decide)
  exact this.trans (by decide)

/-- C8 counterexample: the claim says the retrieval-unreachable case and the
no-usable-passages case return the SAME fixed message; the code returns two
different fixed messages. -/
theorem C8_counterexample :
    (chat_endpoint ⟨"u", .resp 204 "", .err, fun _ => "x"⟩ [] "merhaba").answer = dbErrMsg
    ∧ (chat_endpoint ⟨"u", .resp 204 "", .ok [], fun _ => "x"⟩ [] "merhaba").answer = noDataMsg
    ∧ dbErrMsg ≠ noDataMsg := by decide

/-- C8 (amended): for every request reaching the retrieval fallback, an
unreachable retrieval backend yields one fixed apologetic message and an
empty/whitespace-only passage set yields another (distinct) fixed apologetic
message; in both cases text generation is not invoked, the sources list is
empty, and the message is persisted as the assistant turn. -/
theorem C8_fallback_amended (deps : ChatDeps) (h : List Turn) (msg : String)
    (hexec : executeCond (h ++ [⟨Role.user, msg⟩]) msg = false)
    (hclar : (assistant_recently_asked_for_details (h ++ [⟨Role.user, msg⟩])
        && !(missingPieces (h ++ [⟨Role.user, msg⟩]) msg).isEmpty) = false) :
    (deps.retrieval = .err →
       chat_endpoint deps h msg =
         ⟨dbErrMsg, [], [], [⟨Role.user, msg⟩, ⟨Role.assistant, dbErrMsg⟩],
          [], .ragError, false⟩)
    ∧ (∀ ps, deps.retrieval = .ok ps →
        pyStrip (String.intercalate "\n" (ps.map Passage.content)) = "" →
        chat_endpoint deps h msg =
          ⟨noDataMsg, [], [], [⟨Role.user, msg⟩, ⟨Role.assistant, noDataMsg⟩],
           [], .ragEmpty, false⟩) := by
  have hmain := chat_endpoint_eq_ragFallback deps h msg hexec hclar
  constructor
  · intro hr
    rw [hmain]
    unfold ragFallback
    rw [hr]
  · intro ps hr he
    rw [hmain]
    unfold ragFallback
    rw [hr]
    simp only [he, beq_self_eq_true, if_true]

/-- C8 witness: a concrete request with an unreachable retrieval backend
returns the fixed backend-error message, no sources, no generation, and
persists it. -/
theorem C8_fallback_amended_witness :
    chat_endpoint ⟨"u", .resp 204 "", .err, fun _ => "x"⟩ [] "merhaba" =
      ⟨dbErrMsg, [], [], [⟨Role.user, "merhaba"⟩, ⟨Role.assistant, dbErrMsg⟩],
       [], .ragError, false⟩ :=
  (C8_fallback_amended ⟨"u", .resp 204 "", .err, fun _ => "x"⟩ [] "merhaba"
    (by decide) (by decide)).1 rfl

/-- C4: whenever the Dialogue-State Classifier reports awaiting-details and
at least one of final_order / current-message reason is absent, the resolver
returns the clarification question naming exactly the missing pieces joined
by " ve ", and persists it as an assistant turn. -/
theorem C4_clarify_branch (deps : ChatDeps) (h : List Turn) (msg : String)
    (hA : assistant_recently_asked_for_details (h ++ [⟨Role.user, msg⟩]) = true)
    (hmiss : truthy (finalOrder (h ++ [⟨Role.user, msg⟩]) msg) = false
      ∨ truthy (extract_order_and_reason msg).2 = false) :
    chat_endpoint deps h msg =
      ⟨"İptal işlemi için "
         ++ String.intercalate " ve " (missingPieces (h ++ [⟨Role.user, msg⟩]) msg)
         ++ " bilgisini paylaşır mısınız?", [], [],
       [⟨Role.user, msg⟩,
        ⟨Role.assistant, "İptal işlemi için "
          ++ String.intercalate " ve " (missingPieces (h ++ [⟨Role.user, msg⟩]) msg)
          ++ " bilgisini paylaşır mısınız?"⟩],
       [], Branch.clarify, false⟩ := by
  have hexec : executeCond (h ++ [⟨Role.user, msg⟩]) msg = false := by
    unfold executeCond
    rcases hmiss with hm | hm <;> simp [hm]
  have hne : (missingPieces (h ++ [⟨Role.user, msg⟩]) msg).isEmpty = false := by
    unfold missingPieces
    rcases hmiss with hm | hm <;> simp [hm]
  exact chat_endpoint_eq_clarify deps h msg hexec hA hne

/-- C4 witness: replying with a bare order number while awaiting-details
produces a question asking for the reason only. -/
theorem C4_clarify_branch_witness :
    chat_endpoint ⟨"u", .resp 204 "", .ok [], fun _ => ""⟩
        [⟨Role.assistant, "Sipariş numaranızı ve iptal nedenini paylaşır mısınız?"⟩]
        "12345" =
      ⟨"İptal işlemi için sebep bilgisini paylaşır mısınız?", [], [],
       [⟨Role.user, "12345"⟩,
        ⟨Role.assistant, "İptal işlemi için sebep bilgisini paylaşır mısınız?"⟩],
       [], Branch.clarify, false⟩ := by
  have := C4_clarify_branch ⟨"u", .resp 204 "", .ok [], fun _ => ""⟩
    [⟨Role.assistant, "Sipariş numaranızı ve iptal nedenini paylaşır mısınız?"⟩]
    "12345" (by decide) (Or.inr (by decide))
  exact this.trans (by decide)

/-- C10: when the classifier reports awaiting-details and the current
message yields both an order number and a purely numeric reason, neither the
execute branch nor the clarify branch fires; the request falls through to
the retrieval fallback and no action is recorded. -/
theorem C10_numeric_reason_falls_through (deps : ChatDeps) (h : List Turn)
    (msg o r : String)
    (_hA : assistant_recently_asked_for_details (h ++ [⟨Role.user, msg⟩]) = true)
    (he : extract_order_and_reason msg = (some o, some r))
    (ho : (o == "") = false)
    (hnum : isNumericChars (stripChars r.data) = true) :
    chat_endpoint deps h msg = ragFallback deps (h ++ [⟨Role.user, msg⟩]) msg
    ∧ (chat_endpoint deps h msg).branch ≠ Branch.execute
    ∧ (chat_endpoint deps h msg).branch ≠ Branch.clarify
    ∧ (chat_endpoint deps h msg).savedActions = [] := by
  have hr : (r == "") = false := ne_empty_of_numeric r hnum
  have h1 : (extract_order_and_reason msg).1 = some o := by rw [he]
  have h2 : (extract_order_and_reason msg).2 = some r := by rw [he]
  have hexec : executeCond (h ++ [⟨Role.user, msg⟩]) msg = false := by
    unfold executeCond
    rw [h2]
    simp [hnum]
  have hfo : truthy (finalOrder (h ++ [⟨Role.user, msg⟩]) msg) = true := by
    unfold finalOrder
    rw [h1]
    simp [truthy, ho]
  have hmiss : (missingPieces (h ++ [⟨Role.user, msg⟩]) msg).isEmpty = true := by
    unfold missingPieces
    rw [h2, hfo]
    simp [truthy, hr]
  have hclar : (assistant_recently_asked_for_details (h ++ [⟨Role.user, msg⟩])
      && !(missingPieces (h ++ [⟨Role.user, msg⟩]) msg).isEmpty) = false := by
    simp [hmiss]
  have hmain := chat_endpoint_eq_ragFallback deps h msg hexec hclar
  refine ⟨hmain, ?_, ?_, ?_⟩
  · rw [hmain]
    rcases ragFallback_branch deps (h ++ [⟨Role.user, msg⟩]) msg with hb | hb | hb <;>
      rw [hb] <;> intro hcon <;> cases hcon
  · rw [hmain]
    rcases ragFallback_branch deps (h ++ [⟨Role.user, msg⟩]) msg with hb | hb | hb <;>
      rw [hb] <;> intro hcon <;> cases hcon
  · rw [hmain, ragFallback_savedActions]

/-- C10 witness: "sebep: 12345" while awaiting-details is answered by the
retrieval fallback, not by execution or re-asking. -/
theorem C10_numeric_reason_falls_through_witness :
    chat_endpoint ⟨"u", .resp 204 "", .ok [⟨"bilgi", "d", "0"⟩], fun _ => "y"⟩
        [⟨Role.assistant, "Sipariş numaranızı ve iptal nedenini paylaşır mısınız?"⟩]
        "sebep: 12345" =
      ragFallback ⟨"u", .resp 204 "", .ok [⟨"bilgi", "d", "0"⟩], fun _ => "y"⟩
        ([⟨Role.assistant, "Sipariş numaranızı ve iptal nedenini paylaşır mısınız?"⟩]
          ++ [⟨Role.user, "sebep: 12345"⟩])
        "sebep: 12345" := by
  exact (C10_numeric_reason_falls_through
    ⟨"u", .resp 204 "", .ok [⟨"bilgi", "d", "0"⟩], fun _ => "y"⟩
    [⟨Role.assistant, "Sipariş numaranızı ve iptal nedenini paylaşır mısınız?"⟩]
    "sebep: 12345" "12345" "12345"
    (by decide) (by decide) (by decide) (by decide)).1

/-- C3 counterexample: in a fresh session with no prior turns, a message
carrying both a recognizable order code and a reason keyword does NOT
trigger execution (the classifier reports false without an assistant turn),
and no ActionRecord is persisted — contrary to the claim. -/
theorem C3_counterexample :
    extract_order_and_reason "ORD-8841 hasarlı" = (some "ORD-8841", some "hasarlı")
    ∧ (chat_endpoint ⟨"u", .resp 204 "", .ok [⟨"bilgi", "d", "0"⟩], fun _ => "y"⟩
        [] "ORD-8841 hasarlı").savedActions = []
    ∧ (chat_endpoint ⟨"u", .resp 204 "", .ok [⟨"bilgi", "d", "0"⟩], fun _ => "y"⟩
        [] "ORD-8841 hasarlı").branch ≠ Branch.execute := by decide

/-- C3 (amended): when the Dialogue-State Classifier reports
awaiting-details (rather than in a fresh session) and a single message
carries both a recognizable order code and a (non-numeric, nonempty) reason,
the resolver executes the cancellation with exactly those values, returns
the success message containing both, and persists an ActionRecord with
exactly those arguments. -/
theorem C3_execute_amended (deps : ChatDeps) (h : List Turn) (msg o r body : String)
    (hA : assistant_recently_asked_for_details (h ++ [⟨Role.user, msg⟩]) = true)
    (he : extract_order_and_reason msg = (some o, some r))
    (ho : (o == "") = false) (hr : (r == "") = false)
    (hnum : isNumericChars (stripChars r.data) = false)
    (hapi : deps.apiOutcome = .resp 204 body) :
    chat_endpoint deps h msg =
      ⟨"✅ Sipariş " ++ o ++ " başarıyla iptal edildi. Sebep: " ++ r, [],
       [⟨"cancel_order", deps.baseUrl ++ "/cancel", "POST", o, r, some 204,
         some "Order cancelled successfully", none⟩],
       [⟨Role.user, msg⟩,
        ⟨Role.assistant, "✅ Sipariş " ++ o ++ " başarıyla iptal edildi. Sebep: " ++ r⟩],
       [⟨"cancel_order", o, r, "✅ Sipariş " ++ o ++ " başarıyla iptal edildi. Sebep: " ++ r⟩],
       Branch.execute, false⟩ := by
  have h1 : (extract_order_and_reason msg).1 = some o := by rw [he]
  have h2 : (extract_order_and_reason msg).2 = some r := by rw [he]
  have hfo : finalOrder (h ++ [⟨Role.user, msg⟩]) msg = some o := by
    unfold finalOrder
    rw [h1]
    simp [truthy, ho]
  have hexec : executeCond (h ++ [⟨Role.user, msg⟩]) msg = true := by
    unfold executeCond
    rw [h2, hfo, hA]
    simp [truthy, ho, hr, hnum]
  have hmain := chat_endpoint_eq_execute deps h msg o r hfo h2 hexec
  rw [hmain, hapi]
  simp [call_order_api]

/-- C3 witness: a concrete awaiting-details session with
"Siparişim ORD-77 bozuk çıktı" executes and records the cancellation. -/
theorem C3_execute_amended_witness :
    chat_endpoint ⟨"u", .resp 204 "", .ok [], fun _ => ""⟩
        [⟨Role.assistant, "iptal için sipariş numaranızı ve sebebi paylaşın"⟩]
        "Siparişim ORD-77 bozuk çıktı" =
      ⟨"✅ Sipariş ORD-77 başarıyla iptal edildi. Sebep: bozuk", [],
       [⟨"cancel_order", "u/cancel", "POST", "ORD-77", "bozuk", some 204,
         some "Order cancelled successfully", none⟩],
       [⟨Role.user, "Siparişim ORD-77 bozuk çıktı"⟩,
        ⟨Role.assistant, "✅ Sipariş ORD-77 başarıyla iptal edildi. Sebep: bozuk"⟩],
       [⟨"cancel_order", "ORD-77", "bozuk",
         "✅ Sipariş ORD-77 başarıyla iptal edildi. Sebep: bozuk"⟩],
       Branch.execute, false⟩ :=
  C3_execute_amended ⟨"u", .resp 204 "", .ok [], fun _ => ""⟩
    [⟨Role.assistant, "iptal için sipariş numaranızı ve sebebi paylaşın"⟩]
    "Siparişim ORD-77 bozuk çıktı" "ORD-77" "bozuk" ""
    (by decide) (by decide) (by decide) (by decide) (by decide) rfl

/-- Truthiness of `none`. -/
theorem truthy_none : truthy none = false := rfl

/-- Truthiness of `some`. -/
theorem truthy_some (s : String) : truthy (some s) = !(s == "") := rfl

/-- The scanning loop of the Context Aggregator computes, for each slot
independently, the accumulator when already truthy and otherwise the first
hit across the scanned messages (the early break cannot change the result). -/
theorem contextLoop_eq (msgs : List String) :
    ∀ o r : Option String,
      contextLoop msgs o r =
        ((if truthy o then o
          else match firstOrderIn msgs with
            | some x => some x
            | none => o),
         (if truthy r then r
          else match firstAcceptedReasonIn msgs with
            | some x => some x
            | none => r)) := by
  induction msgs with
  | nil =>
    intro o r
    cases hto : truthy o <;> cases htr : truthy r <;>
      simp [contextLoop, firstOrderIn, firstAcceptedReasonIn, hto, htr]
  | cons m rest ih =>
    intro o r
    rcases he : extract_order_and_reason m with ⟨mo, mr⟩
    simp only [contextLoop, firstOrderIn, firstAcceptedReasonIn, acceptedReasonOf, he]
    rw [ih]
    rcases mo with _ | os <;> rcases mr with _ | s <;>
      cases hto : truthy o <;> cases htr : truthy r <;>
        simp [hto, htr, truthy_none, truthy_some] <;>
          (try cases hos : os == "") <;> (try cases hts : s == "") <;>
            (try cases hac : acceptableReason s) <;>
              simp_all [truthy_none, truthy_some]

/-- C5: `get_session_context_for_order` scans the (at most) 10 most recent
user turns newest first and returns, independently, the first truthy order
number the Entity Extractor yields and the first accepted reason (present,
nonempty, not purely numeric after stripping, containing no
greeting/cancellation word case-insensitively); either slot may remain
absent, and the early break once both are found does not change the result. -/
theorem C5_context_aggregator (h : List Turn) :
    get_session_context_for_order h =
      (firstOrderIn (recentUserContents h),
       firstAcceptedReasonIn (recentUserContents h)) := by
  unfold get_session_context_for_order
  rw [contextLoop_eq]
  cases ho : firstOrderIn (recentUserContents h) <;>
    cases hr : firstAcceptedReasonIn (recentUserContents h) <;>
      simp [ho, hr, truthy_none]

/-- Case folding fixes digits and whitespace, whose code points sit below
the lower-case letters. -/
theorem foldChar_small {c : Char} (h : isAsciiDigit c = true ∨ isPySpace c = true) :
    foldChar c = c ∧ c.toNat < 97 := by
  rcases h with hd | hs
  · unfold isAsciiDigit at hd
    simp only [Bool.and_eq_true, decide_eq_true_eq] at hd
    obtain ⟨h1, h2⟩ := hd
    have hne : ∀ d : Char, 97 ≤ d.toNat → (c == d) = false := by
      intro d hdn
      apply beq_eq_false_iff_ne.mpr
      intro hcd
      subst hcd
      omega
    constructor
    · unfold foldChar
      have hA : (65 ≤ c.toNat && c.toNat ≤ 90) = false := by
        simp only [Bool.and_eq_false_iff, decide_eq_false_iff_not]
        left
        omega
      rw [hA, hne 'Ç' (by decide), hne 'Ğ' (by decide), hne 'Ö' (by decide),
        hne 'Ş' (by decide), hne 'Ü' (by decide), hne 'İ' (by decide)]
      simp
    · omega
  · unfold isPySpace at hs
    simp only [Bool.or_eq_true] at hs
    rcases hs with ((((h1 | h1) | h1) | h1) | h1) | h1 <;>
      · have := eq_of_beq h1
        subst this
        decide

end ChatbotGenai

namespace ChatbotGenai

/-- A literal match fails when its first folded character differs. -/
theorem matchLit_cons_none {k : Char} {ks : List Char} {c : Char} {cs : List Char}
    (hne : (foldChar c == k) = false) :
    matchLit (k :: ks) (c :: cs) = none := by
  simp [matchLit, hne]

/-- `findSome?` over a list of all-`none` results is `none`. -/
theorem findSomeNoneOfAll {α β : Type} (f : α → Option β) :
    ∀ l : List α, (∀ a ∈ l, f a = none) → l.findSome? f = none := by
  intro l h
  induction l with
  | nil => rfl
  | cons a t ih =>
    have ha := h a (by simp)
    simp [List.findSome?, ha]
    exact fun x hx => h x (by simp [hx])

/-- No reason keyword matches at a position whose character folds below
the lower-case letters (every keyword starts with a lower-case letter). -/
theorem matchKeywordAt_none {c : Char} (hc : foldChar c = c) (hcn : c.toNat < 97)
    (cs : List Char) : matchKeywordAt (c :: cs) = none := by
  have hall : ∀ kw ∈ reasonKeywords, kw ≠ [] ∧ 97 ≤ (kw.headD 'a').toNat := by decide
  unfold matchKeywordAt
  apply findSomeNoneOfAll
  intro kw hkw
  obtain ⟨hne0, hh⟩ := hall kw hkw
  rcases kw with _ | ⟨k, ks⟩
  · exact absurd rfl hne0
  · apply matchLit_cons_none
    rw [hc]
    apply beq_eq_false_iff_ne.mpr
    intro hck
    subst hck
    simp only [List.headD_cons] at hh
    omega

/-- The keyword alternation never matches inside a digits-and-whitespace
string. -/
theorem searchKeyword_none {cs : List Char}
    (h : ∀ c ∈ cs, isAsciiDigit c = true ∨ isPySpace c = true) :
    searchKeyword cs = none := by
  induction cs with
  | nil => rfl
  | cons c rest ih =>
    obtain ⟨hc, hcn⟩ := foldChar_small (h c (by simp))
    simp [searchKeyword, matchKeywordAt_none hc hcn]
    exact ih (fun x hx => h x (by simp [hx]))

/-- The `sebep` marker never matches inside a digits-and-whitespace
string. -/
theorem searchSebep_none {cs : List Char}
    (h : ∀ c ∈ cs, isAsciiDigit c = true ∨ isPySpace c = true) :
    searchSebep cs = none := by
  induction cs with
  | nil => rfl
  | cons c rest ih =>
    obtain ⟨hc, hcn⟩ := foldChar_small (h c (by simp))
    have hm : matchLit ['s', 'e', 'b', 'e', 'p'] (c :: rest) = none := by
      apply matchLit_cons_none
      rw [hc]
      apply beq_eq_false_iff_ne.mpr
      intro hck
      subst hck
      exact absurd hcn (by decide)
    simp [searchSebep, matchSebepAt, hm]
    exact ih (fun x hx => h x (by simp [hx]))

/-- If the stripped form of a character list is purely numeric, every
character of the list is a digit or whitespace. -/
theorem mem_digit_or_space {cs : List Char} (h : isNumericChars (stripChars cs) = true) :
    ∀ c ∈ cs, isAsciiDigit c = true ∨ isPySpace c = true := by
  intro c hc
  unfold isNumericChars at h
  simp only [Bool.and_eq_true, List.all_eq_true] at h
  obtain ⟨-, hall⟩ := h
  by_cases hsp : isPySpace c = true
  · exact Or.inr hsp
  · left
    apply hall
    unfold stripChars dropTrailing
    -- c is in cs, not whitespace, so it survives both trims
    have h1 : c ∈ cs.dropWhile isPySpace := by
      have := List.takeWhile_append_dropWhile (p := isPySpace) (l := cs)
      rw [← this] at hc
      rcases List.mem_append.mp hc with hmem | hmem
      · exact absurd (List.mem_takeWhile_imp hmem) hsp
      · exact hmem
    have h2 : c ∈ (cs.dropWhile isPySpace).reverse.dropWhile isPySpace := by
      have hrev : c ∈ (cs.dropWhile isPySpace).reverse := List.mem_reverse.mpr h1
      have := List.takeWhile_append_dropWhile (p := isPySpace)
        (l := (cs.dropWhile isPySpace).reverse)
      rw [← this] at hrev
      rcases List.mem_append.mp hrev with hmem | hmem
      · exact absurd (List.mem_takeWhile_imp hmem) hsp
      · exact hmem
    exact List.mem_reverse.mpr h2

/-- C6: for every message that is purely numeric after trimming, reason
extraction returns absent — the marker and keyword searches cannot match,
and the short-message fallback is blocked by its numeric guard. -/
theorem C6_numeric_reason_absent (msg : String)
    (hnum : isNumericChars (stripChars msg.data) = true) :
    (extract_order_and_reason msg).2 = none := by
  have hmem := mem_digit_or_space hnum
  unfold extract_order_and_reason
  rw [searchSebep_none hmem, searchKeyword_none hmem]
  simp [hnum]

/-- C6 witness: the bare number " 12345 " yields no reason. -/
theorem C6_numeric_reason_absent_witness :
    (extract_order_and_reason " 12345 ").2 = none :=
  C6_numeric_reason_absent " 12345 " (by decide)

/-- Membership survives `dropWhile` removal. -/
theorem mem_of_mem_dropWhile {p : Char → Bool} {x : Char} :
    ∀ {cs : List Char}, x ∈ cs.dropWhile p → x ∈ cs := by
  intro cs
  induction cs with
  | nil => exact fun h => h
  | cons c rest ih =>
    intro h
    by_cases hc : p c = true
    · simp only [List.dropWhile_cons, hc, if_true] at h
      exact List.mem_cons_of_mem _ (ih h)
    · simp only [List.dropWhile_cons, hc] at h
      exact h

/-- Membership survives dropping the optional punctuation. -/
theorem mem_of_mem_dropPunct {x : Char} {l : List Char} (h : x ∈ dropPunct l) :
    x ∈ l := by
  unfold dropPunct at h
  split at h
  · exact List.mem_cons_of_mem _ h
  · exact List.mem_cons_of_mem _ h
  · exact h

/-- `.*` keeps a whole newline-free string. -/
theorem takeWhile_ne_newline {cs : List Char}
    (h : ∀ c ∈ cs, (c == '\n') = false) :
    cs.takeWhile (fun c => !(c == '\n')) = cs := by
  induction cs with
  | nil => rfl
  | cons c rest ih =>
    have hc := h c (by simp)
    simp only [List.takeWhile_cons, hc, Bool.not_false, if_true]
    rw [ih (fun x hx => h x (by simp [hx]))]

/-- `dropWhile` is idempotent. -/
theorem dropWhile_dropWhile (p : Char → Bool) (cs : List Char) :
    (cs.dropWhile p).dropWhile p = cs.dropWhile p := by
  induction cs with
  | nil => rfl
  | cons c rest ih =>
    by_cases hc : p c = true
    · simp only [List.dropWhile_cons, hc, if_true]
      exact ih
    · simp [List.dropWhile_cons, hc]

/-- Stripping after dropping leading whitespace equals stripping. -/
theorem stripChars_dropWhile (cs : List Char) :
    stripChars (cs.dropWhile isPySpace) = stripChars cs := by
  unfold stripChars
  rw [dropWhile_dropWhile]

/-- On newline-free text, the group `\s*(.*)` followed by `strip()` equals
trimming the raw trailing text. -/
theorem strip_take_drop {xs : List Char} (h : ∀ x ∈ xs, (x == '\n') = false) :
    stripChars ((xs.dropWhile isPySpace).takeWhile (fun c => !(c == '\n')))
      = stripChars xs := by
  rw [takeWhile_ne_newline (fun x hx => h x (mem_of_mem_dropWhile hx))]
  exact stripChars_dropWhile xs

/-- On newline-free messages the stripped regex group of the marker search
coincides with the claim's trailing-text-trimmed reading. -/
theorem searchSebep_eq_spec : ∀ cs : List Char,
    (∀ c ∈ cs, (c == '\n') = false) →
    (searchSebep cs).map stripChars = specTrailingReason cs := by
  intro cs
  induction cs with
  | nil => exact fun _ => rfl
  | cons c rest ih =>
    intro hnl
    cases hm : matchLit ['s', 'e', 'b', 'e', 'p'] (c :: rest) with
    | none =>
      simp only [searchSebep, specTrailingReason, matchSebepAt, specTrailingAt, hm]
      exact ih (fun x hx => hnl x (by simp [hx]))
    | some pre =>
      simp only [searchSebep, specTrailingReason, matchSebepAt, specTrailingAt, hm]
      have hsub : ∀ x ∈ (c :: rest).drop 5, (x == '\n') = false :=
        fun x hx => hnl x (List.mem_of_mem_drop hx)
      simp only [Option.map_some']
      rw [strip_take_drop (fun x hx => hsub x (mem_of_mem_dropPunct hx))]


/-- C7 counterexample: with a newline after the marker's line, the code's
reason stops at the end of the line ("kötü"), not at the end of the message
("kötü\ndevamı" trimmed) as the claim states. -/
theorem C7_counterexample :
    extract_order_and_reason "ORD-1 sebep: kötü\ndevamı"
      = (some "ORD-1", some "kötü")
    ∧ specTrailingReasonS "ORD-1 sebep: kötü\ndevamı" = some "kötü\ndevamı"
    ∧ ("kötü" : String) ≠ "kötü\ndevamı" := by decide

/-- C7 (amended): for every NEWLINE-FREE message containing a recognizable
order code and the (case-insensitive) reason marker, extraction returns both
fields non-absent and the reason equals exactly the text following the
marker (minus one optional colon/hyphen) up to the end of the message,
trimmed. -/
theorem C7_marker_reason_amended (msg : String)
    (hnl : ∀ c ∈ msg.data, (c == '\n') = false)
    (o : String) (ho : (extract_order_and_reason msg).1 = some o)
    (g : String) (hm : specTrailingReasonS msg = some g) :
    (extract_order_and_reason msg).1 = some o
    ∧ (extract_order_and_reason msg).2 = some g := by
  refine ⟨ho, ?_⟩
  have hspec := searchSebep_eq_spec msg.data hnl
  unfold specTrailingReasonS at hm
  rcases hsp : specTrailingReason msg.data with _ | gl
  · rw [hsp] at hm
    cases hm
  · rw [hsp] at hm
    simp only [Option.map_some'] at hm
    injection hm with hmk
    rw [hsp] at hspec
    rcases hs : searchSebep msg.data with _ | pre
    · rw [hs] at hspec
      simp only [Option.map_none'] at hspec
      cases hspec
    · rw [hs] at hspec
      simp only [Option.map_some'] at hspec
      injection hspec with hstrip
      unfold extract_order_and_reason
      simp only [hs]
      rw [hstrip, hmk]

/-- C7 witness: "ORD-1 sebep: kötü" extracts order "ORD-1" and reason
"kötü". -/
theorem C7_marker_reason_amended_witness :
    (extract_order_and_reason "ORD-1 sebep: kötü").1 = some "ORD-1"
    ∧ (extract_order_and_reason "ORD-1 sebep: kötü").2 = some "kötü" :=
  C7_marker_reason_amended "ORD-1 sebep: kötü" (by decide) "ORD-1" (by decide)
    "kötü" (by decide)

end ChatbotGenai
